import Mathlib

/-!
Shallow embedding of the `neural` repository (files `bandScan.py` and
`musestream.py`) and proofs of the claims its specification makes.

Numeric values carried by the EEG pipeline are embedded as rationals
(`ℚ`): every decimal literal of the source denotes the rational it
writes, and the Python truncation `int(...)` toward zero is `pyInt`.
Fallible Python code is embedded in `Except`, with the exceptions the
program can raise listed in `PyErr`.
-/

/-- Python `int(q)`: truncation toward zero. -/
def pyInt (q : ℚ) : ℤ :=
  if 0 ≤ q then ⌊q⌋ else ⌈q⌉

-- The `Band` enum of `bandScan.py`: indices of the five tracked bands.
namespace Band

def Delta : ℕ := 0

def Theta : ℕ := 1

def Alpha : ℕ := 2

def Beta : ℕ := 3

def Gamma : ℕ := 4

end Band

-- The `Parameters` class of `bandScan.py` (experimental parameters).
namespace Parameters

/-- Length of the EEG data buffer in seconds (`BUFFER_LENGTH = 5`). -/
def BUFFER_LENGTH : ℤ := 5

/-- Length of the FFT epochs in seconds (`EPOCH_LENGTH = 1`). -/
def EPOCH_LENGTH : ℤ := 1

/-- Overlap between consecutive epochs (`OVERLAP_LENGTH = 0.8`). -/
def OVERLAP_LENGTH : ℚ := 8/10

/-- `SHIFT_LENGTH = EPOCH_LENGTH - OVERLAP_LENGTH`. -/
def SHIFT_LENGTH : ℚ := (EPOCH_LENGTH : ℚ) - OVERLAP_LENGTH

/-- `INDEX_CHANNEL = [0]`: electrode indices kept by channel selection. -/
def INDEX_CHANNEL : List ℕ := [0]

end Parameters

/-- `n_win_test = int(np.floor((BUFFER_LENGTH - EPOCH_LENGTH) / SHIFT_LENGTH + 1))`,
the number of epochs held by the band-power buffer (computed in
`GetWaves.__init__`). -/
def nWinTest : ℕ :=
  (pyInt (((Parameters.BUFFER_LENGTH : ℚ) - (Parameters.EPOCH_LENGTH : ℚ)) /
      Parameters.SHIFT_LENGTH + 1)).toNat

/-- An LSL stream as seen by `bandScan.py`: the only attribute the script
reads is the nominal sampling rate (`info.nominal_srate()`). -/
structure StreamInfo where
  nominal_srate : ℚ
deriving DecidableEq, Repr

/-- Opaque state of the notch filter threaded through `utils.update_buffer`. -/
def FilterState : Type := Unit

instance : DecidableEq FilterState := fun _ _ => .isTrue rfl

/-- The `GetWaves` object of `bandScan.py`: the fields set by `__init__`
that the acquisition loop reads and writes.  `eeg_buffer` is the raw
(samples × 1 channel) buffer; `band_buffer` is the (epochs × 5 bands)
band-power history. -/
structure GetWaves where
  epochLength : ℤ
  shiftLength : ℚ
  fs : ℤ
  eeg_buffer : List (List ℚ)
  filter_state : Option FilterState
  band_buffer : List (List ℚ)
deriving DecidableEq

/-- The fixed message of the `RuntimeError` raised by `GetWaves.__init__`
when no EEG stream is found (`\x27Can\x27t find EEG stream.\x27`). -/
def errNoStream : String := "Can\x27t find EEG stream."

/-- `GetWaves.__init__(timeout)`.  The LSL resolver `resolve_byprop` is an
external collaborator, passed as the oracle `resolve`; `__init__` calls it
as `resolve_byprop(\x27type\x27, \x27EEG\x27, timeout=timeout)`, raises
`RuntimeError` on an empty result, and otherwise opens an inlet on
`streams[0]` and allocates the two zero buffers. -/
def GetWaves.init (timeout : ℚ) (resolve : String → String → ℚ → List StreamInfo) :
    Except String GetWaves :=
  let streams := resolve "type" "EEG" timeout
  match streams with
  | [] => .error errNoStream
  | s :: _ =>
    let fs := pyInt s.nominal_srate
    .ok { epochLength := Parameters.EPOCH_LENGTH
          shiftLength := Parameters.SHIFT_LENGTH
          fs := fs
          eeg_buffer := List.replicate (fs * Parameters.BUFFER_LENGTH).toNat [0]
          filter_state := none
          band_buffer := List.replicate nWinTest (List.replicate 5 0) }

/-- C1: for every timeout, if stream discovery returns an empty list then
`GetWaves.__init__` raises `RuntimeError` with the fixed message
`errNoStream` and no `GetWaves` object is constructed; if discovery
returns at least one stream, construction does not raise this error. -/
theorem getWaves_init_stream_discovery (timeout : ℚ)
    (resolve : String → String → ℚ → List StreamInfo) :
    (resolve "type" "EEG" timeout = [] →
      GetWaves.init timeout resolve = .error errNoStream) ∧
    (resolve "type" "EEG" timeout ≠ [] →
      ∃ w, GetWaves.init timeout resolve = .ok w) := by
  constructor
  · intro h
    simp [GetWaves.init, h]
  · intro h
    match hs : resolve "type" "EEG" timeout with
    | [] => exact absurd hs h
    | s :: rest =>
      exact ⟨{ epochLength := Parameters.EPOCH_LENGTH
               shiftLength := Parameters.SHIFT_LENGTH
               fs := pyInt s.nominal_srate
               eeg_buffer := List.replicate
                 (pyInt s.nominal_srate * Parameters.BUFFER_LENGTH).toNat [0]
               filter_state := none
               band_buffer := List.replicate nWinTest (List.replicate 5 0) },
             by simp [GetWaves.init, hs]⟩

/-- Witness for C1 at concrete resolver oracles: the empty discovery result
yields the fixed error, a singleton discovery result yields a constructed
object. -/
theorem getWaves_init_stream_discovery_witness :
    GetWaves.init 2 (fun _ _ _ => []) = .error errNoStream ∧
    ∃ w, GetWaves.init 2 (fun _ _ _ => [⟨256⟩]) = .ok w :=
  ⟨(getWaves_init_stream_discovery 2 (fun _ _ _ => [])).1 rfl,
   (getWaves_init_stream_discovery 2 (fun _ _ _ => [⟨256⟩])).2 (by simp)⟩

/-- Modelled from the spec: `utils.update_buffer` is not under `src/`; the
spec describes it as a shift-and-append update that keeps a fixed window
length, new data pushing out the oldest, optionally applying a notch
filter whose state is threaded through.  The value transformation of the
filter is not specified, so values pass through unchanged; on the
shapes the claims concern the model is exact. -/
def update_buffer (data_buffer new_data : List α) (notch : Bool)
    (filter_state : Option FilterState) :
    List α × Option FilterState :=
  ((data_buffer ++ new_data).drop new_data.length,
   if notch then some () else filter_state)

/-- Modelled from the spec: `utils.get_last_data` is not under `src/`; the
spec describes epoch extraction as taking the newest samples from the
buffer, so it returns the last `n` entries. -/
def get_last_data (data_buffer : List α) (n : ℕ) : List α :=
  data_buffer.drop (data_buffer.length - n)

/-- `np.mean(rows, axis=0)` on a rectangular two-dimensional array:
one column mean per column of the first row. -/
def npMeanAxis0 (rows : List (List ℚ)) : List ℚ :=
  match rows with
  | [] => []
  | r :: _ =>
    (List.range r.length).map
      (fun j => (rows.map (fun row => row.getD j 0)).sum / rows.length)

/-- `GetWaves.smoothBandPowers`: `np.mean(self.band_buffer, axis=0)`. -/
def GetWaves.smoothBandPowers (w : GetWaves) : List ℚ :=
  npMeanAxis0 w.band_buffer

/-- Events observable from `GetWaves.output`: the one console print of the
five raw band powers, the call computing the smoothed band powers, each
division performed (numerator, denominator), and each metric print. -/
inductive OutEvent where
  | printBands (delta theta alpha beta gamma : ℚ)
  | smoothCall (result : List ℚ)
  | divide (num den : ℚ)
  | printMetric (label : String) (value : ℚ)
deriving DecidableEq, Repr

/-- `GetWaves.output(bands, verbose)` as its trace of observable events:
it always prints the five raw band powers and computes
`smooth_band_powers`; only under `verbose` it computes and prints the
four neurofeedback metrics (alpha/delta, beta/theta, gamma alone,
theta/alpha), each ratio preceded by the division it performs. -/
def GetWaves.output (w : GetWaves) (bands : List ℚ) (verbose : Bool) :
    List OutEvent :=
  let sbp := w.smoothBandPowers
  [OutEvent.printBands (bands.getD Band.Delta 0) (bands.getD Band.Theta 0)
     (bands.getD Band.Alpha 0) (bands.getD Band.Beta 0) (bands.getD Band.Gamma 0),
   OutEvent.smoothCall sbp] ++
  (if verbose then
    [OutEvent.divide (sbp.getD Band.Alpha 0) (sbp.getD Band.Delta 0),
     OutEvent.printMetric "Alpha Relaxation: "
       (sbp.getD Band.Alpha 0 / sbp.getD Band.Delta 0),
     OutEvent.divide (sbp.getD Band.Beta 0) (sbp.getD Band.Theta 0),
     OutEvent.printMetric "Beta Concentration: "
       (sbp.getD Band.Beta 0 / sbp.getD Band.Theta 0),
     OutEvent.printMetric "Gamma Perception: " (sbp.getD Band.Gamma 0),
     OutEvent.divide (sbp.getD Band.Theta 0) (sbp.getD Band.Alpha 0),
     OutEvent.printMetric "Theta Relaxation: "
       (sbp.getD Band.Theta 0 / sbp.getD Band.Alpha 0)]
   else [])

/-- The metric prints of an output trace, in order. -/
def metricPrints (tr : List OutEvent) : List (String × ℚ) :=
  tr.filterMap (fun e =>
    match e with
    | .printMetric label v => some (label, v)
    | _ => none)

/-- The divisions an output trace performs, in order. -/
def tracedDivisions (tr : List OutEvent) : List (ℚ × ℚ) :=
  tr.filterMap (fun e =>
    match e with
    | .divide n d => some (n, d)
    | _ => none)

lemma npMeanAxis0_length (r : List ℚ) (rest : List (List ℚ)) :
    (npMeanAxis0 (r :: rest)).length = r.length := by
  simp [npMeanAxis0]

lemma npMeanAxis0_getD (r : List ℚ) (rest : List (List ℚ)) (j : ℕ)
    (hj : j < r.length) :
    (npMeanAxis0 (r :: rest)).getD j 0 =
      ((r :: rest).map (fun row => row.getD j 0)).sum / (r :: rest).length := by
  simp [npMeanAxis0, List.getD_eq_getElem?_getD, List.getElem?_map,
    List.getElem?_range, hj]

/-- C3: for every non-empty band-power buffer of 5-band rows,
`GetWaves.smoothBandPowers` returns the arithmetic mean of the buffer
along the time axis (axis 0) — one scalar per band, each the column sum
divided by the number of epochs — and the returned vector has length
exactly 5. -/
theorem smoothBandPowers_columnwise_mean (w : GetWaves)
    (hne : w.band_buffer ≠ [])
    (hrows : ∀ r ∈ w.band_buffer, r.length = 5) :
    w.smoothBandPowers.length = 5 ∧
    ∀ j, j < 5 →
      w.smoothBandPowers.getD j 0 =
        (w.band_buffer.map (fun row => row.getD j 0)).sum / w.band_buffer.length := by
  rcases hb : w.band_buffer with _ | ⟨r, rest⟩
  · exact absurd hb hne
  · have hr : r.length = 5 := hrows r (by rw [hb]; exact List.mem_cons_self r rest)
    constructor
    · rw [GetWaves.smoothBandPowers, hb, npMeanAxis0_length, hr]
    · intro j hj
      rw [GetWaves.smoothBandPowers, hb,
        npMeanAxis0_getD r rest j (by rw [hr]; exact hj)]

/-- Witness for C3 at a concrete two-epoch buffer. -/
theorem smoothBandPowers_columnwise_mean_witness :
    (GetWaves.mk 1 Parameters.SHIFT_LENGTH 1 [[0]] none
        [[1, 2, 3, 4, 5], [3, 4, 5, 6, 7]]).smoothBandPowers.length = 5 ∧
    (GetWaves.mk 1 Parameters.SHIFT_LENGTH 1 [[0]] none
        [[1, 2, 3, 4, 5], [3, 4, 5, 6, 7]]).smoothBandPowers.getD 1 0 =
      ((GetWaves.mk 1 Parameters.SHIFT_LENGTH 1 [[0]] none
        [[1, 2, 3, 4, 5], [3, 4, 5, 6, 7]]).band_buffer.map
          (fun row => row.getD 1 0)).sum /
        (GetWaves.mk 1 Parameters.SHIFT_LENGTH 1 [[0]] none
        [[1, 2, 3, 4, 5], [3, 4, 5, 6, 7]]).band_buffer.length :=
  ⟨(smoothBandPowers_columnwise_mean _ (by decide) (by decide)).1,
   (smoothBandPowers_columnwise_mean _ (by decide) (by decide)).2 1 (by decide)⟩

/-- C4: with `verbose` set, the neurofeedback metric computation prints
exactly four fixed metrics derived from the smoothed band powers — alpha
divided by delta, beta divided by theta, gamma alone, and theta divided by
alpha — in that order. -/
theorem output_verbose_four_metrics (w : GetWaves) (bands : List ℚ) :
    metricPrints (w.output bands true) =
      [("Alpha Relaxation: ",
        w.smoothBandPowers.getD Band.Alpha 0 / w.smoothBandPowers.getD Band.Delta 0),
       ("Beta Concentration: ",
        w.smoothBandPowers.getD Band.Beta 0 / w.smoothBandPowers.getD Band.Theta 0),
       ("Gamma Perception: ", w.smoothBandPowers.getD Band.Gamma 0),
       ("Theta Relaxation: ",
        w.smoothBandPowers.getD Band.Theta 0 / w.smoothBandPowers.getD Band.Alpha 0)] := by
  simp [GetWaves.output, metricPrints]

/-- The default of the `verbose` parameter of `GetWaves.run`. -/
def runDefaultVerbose : Bool := false

/-- C9: with the default `verbose=False` of `GetWaves.run`, each call of
`GetWaves.output` prints only the five raw band powers; the smoothed band
powers are still computed, but nothing else happens — no metric is
computed or printed. -/
theorem output_default_prints_only_raw_bands (w : GetWaves) (bands : List ℚ) :
    runDefaultVerbose = false ∧
    w.output bands runDefaultVerbose =
      [OutEvent.printBands (bands.getD Band.Delta 0) (bands.getD Band.Theta 0)
         (bands.getD Band.Alpha 0) (bands.getD Band.Beta 0) (bands.getD Band.Gamma 0),
       OutEvent.smoothCall w.smoothBandPowers] := by
  exact ⟨rfl, by simp [GetWaves.output, runDefaultVerbose]⟩

lemma getD_replicate_zero (k j : ℕ) : (List.replicate k (0 : ℚ)).getD j 0 = 0 := by
  simp only [List.getD_eq_getElem?_getD, List.getElem?_replicate]
  split <;> simp

lemma npMeanAxis0_zero_rows (n k : ℕ) :
    npMeanAxis0 (List.replicate (n + 1) (List.replicate k (0 : ℚ))) =
      List.replicate k 0 := by
  rw [List.replicate_succ]
  simp only [npMeanAxis0]
  refine List.eq_replicate_iff.mpr ⟨by simp, ?_⟩
  intro b hb
  simp only [List.mem_map, List.mem_range] at hb
  obtain ⟨j, hj, rfl⟩ := hb
  simp [getD_replicate_zero, List.map_replicate, List.sum_replicate]

lemma nWinTest_eq : nWinTest = 21 := by
  norm_num [nWinTest, pyInt, Parameters.BUFFER_LENGTH, Parameters.EPOCH_LENGTH,
    Parameters.SHIFT_LENGTH, Parameters.OVERLAP_LENGTH]
  rfl

lemma smoothBandPowers_zero_buffer (e : ℤ) (sl : ℚ) (fs : ℤ)
    (eb : List (List ℚ)) (fst : Option FilterState) :
    (GetWaves.mk e sl fs eb fst
        (List.replicate nWinTest (List.replicate 5 0))).smoothBandPowers =
      List.replicate 5 0 := by
  show npMeanAxis0 (List.replicate nWinTest (List.replicate 5 0)) = _
  rw [nWinTest_eq]
  exact npMeanAxis0_zero_rows 20 5

/-- C5: the division-by-zero branch of the metric computation is
reachable and unguarded: the freshly constructed `GetWaves` object (all
band powers zero) has smoothed delta, theta and alpha equal to zero, yet
`output` under `verbose` still performs all three divisions — each with a
zero denominator — and still emits all four metric prints; no code path
prevents or handles the zero denominators. -/
theorem output_division_by_zero_unguarded :
    ∃ w, GetWaves.init 2 (fun _ _ _ => [⟨256⟩]) = .ok w ∧
      w.smoothBandPowers.getD Band.Delta 0 = 0 ∧
      w.smoothBandPowers.getD Band.Theta 0 = 0 ∧
      w.smoothBandPowers.getD Band.Alpha 0 = 0 ∧
      tracedDivisions (w.output [0, 0, 0, 0, 0] true) = [(0, 0), (0, 0), (0, 0)] ∧
      (metricPrints (w.output [0, 0, 0, 0, 0] true)).length = 4 := by
  refine ⟨_, rfl, ?_, ?_, ?_, ?_, ?_⟩
  case refine_1 => rw [smoothBandPowers_zero_buffer]; decide
  case refine_2 => rw [smoothBandPowers_zero_buffer]; decide
  case refine_3 => rw [smoothBandPowers_zero_buffer]; decide
  case refine_4 =>
    simp only [GetWaves.output, tracedDivisions, smoothBandPowers_zero_buffer]
    rfl
  case refine_5 => simp [GetWaves.output, metricPrints]

/-- The exceptions the program can raise: the keyboard interrupt that
stops the acquisition loop, the numpy indexing error of channel
selection on a malformed chunk, and any other exception. -/
inductive PyErr where
  | keyboardInterrupt
  | indexError
  | other (msg : String)
deriving DecidableEq, Repr

/-- Channel selection `np.array(eeg_data)[:, Parameters.INDEX_CHANNEL]`:
on an empty chunk `np.array` yields a one-dimensional array and the
two-axis index raises `IndexError`; likewise when the rows are ragged
(object array) or have no column at an index of `INDEX_CHANNEL`.  On a
rectangular chunk with enough columns it keeps the indexed columns of
every sample. -/
def chSelect (eeg_data : List (List ℚ)) : Except PyErr (List (List ℚ)) :=
  match eeg_data with
  | [] => .error .indexError
  | r :: rs =>
    if rs.all (fun row => row.length == r.length) &&
        Parameters.INDEX_CHANNEL.all (fun i => decide (i < r.length)) then
      .ok ((r :: rs).map (fun row => Parameters.INDEX_CHANNEL.map (fun i => row.getD i 0)))
    else .error .indexError

/-- One iteration of the acquisition loop of `GetWaves.run` (its effect on
the object state): select the channel from the pulled chunk, update the
raw EEG buffer, extract the newest epoch, compute the band powers, and
update the band-power buffer.  `compute_band_powers` lives in the missing
`utils` module; the spec only fixes that it yields one scalar per band,
so it is passed as the oracle `cbp`.  The console/plot side effects of the
iteration do not touch the state and are modelled by `GetWaves.output`
and `loopCalls`. -/
def loopStep (cbp : List (List ℚ) → ℤ → Fin 5 → ℚ) (w : GetWaves)
    (eeg_data : List (List ℚ)) : Except PyErr GetWaves :=
  match chSelect eeg_data with
  | .error e => .error e
  | .ok ch_data =>
    let ub := update_buffer w.eeg_buffer ch_data true w.filter_state
    let data_epoch := get_last_data ub.1 (w.epochLength * w.fs).toNat
    let band_powers := List.ofFn (cbp data_epoch w.fs)
    let bb := update_buffer w.band_buffer [band_powers] false none
    .ok { w with eeg_buffer := ub.1, filter_state := ub.2, band_buffer := bb.1 }

/-- What one turn of the `while True` loop of `GetWaves.run` receives:
a pulled chunk, or an exception raised during the iteration (a
keyboard interrupt from Ctrl-C, or any other exception). -/
inductive LoopEvent where
  | chunk (eeg_data : List (List ℚ))
  | keyboardInterrupt
  | otherExn (msg : String)
deriving DecidableEq, Repr

/-- The body of the `while True` loop of `GetWaves.run`, iterated over a
finite prefix of events: returns the state if the events are exhausted
(the loop would continue), or the first exception to escape the loop. -/
def runBody (cbp : List (List ℚ) → ℤ → Fin 5 → ℚ) :
    List LoopEvent → GetWaves → Except PyErr GetWaves
  | [], w => .ok w
  | e :: es, w =>
    match e with
    | .keyboardInterrupt => .error .keyboardInterrupt
    | .otherExn m => .error (.other m)
    | .chunk d =>
      match loopStep cbp w d with
      | .error err => .error err
      | .ok w2 => runBody cbp es w2

/-- Outcome of `GetWaves.run` on a finite prefix of loop events. -/
inductive RunOutcome where
  | stillRunning (w : GetWaves)
  | returnedNormally (farewell : String)
  | uncaught (e : PyErr)
deriving DecidableEq

/-- `GetWaves.run`: the `while True` loop wrapped in the
`try ... except KeyboardInterrupt` handler.  A keyboard interrupt is
caught, prints the farewell message and returns normally; every other
exception escapes `run` uncaught. -/
def runModel (cbp : List (List ℚ) → ℤ → Fin 5 → ℚ) (events : List LoopEvent)
    (w : GetWaves) : RunOutcome :=
  match runBody cbp events w with
  | .ok w2 => .stillRunning w2
  | .error .keyboardInterrupt => .returnedNormally "Closing!"
  | .error e => .uncaught e

lemma runBody_append (cbp : List (List ℚ) → ℤ → Fin 5 → ℚ)
    (l1 l2 : List LoopEvent) (w : GetWaves) :
    runBody cbp (l1 ++ l2) w =
      match runBody cbp l1 w with
      | .ok w1 => runBody cbp l2 w1
      | .error e => .error e := by
  induction l1 generalizing w with
  | nil => rfl
  | cons e es ih =>
    cases e with
    | chunk d =>
      simp only [List.cons_append, runBody]
      cases loopStep cbp w d with
      | error err => rfl
      | ok w2 => exact ih w2
    | keyboardInterrupt => rfl
    | otherExn m => rfl

/-- C6: a keyboard interrupt raised anywhere inside the acquisition loop
of `GetWaves.run` is caught by the outermost handler of the loop, the
farewell message is printed, and `run` returns normally instead of
propagating the interrupt; any other exception raised at the same place
is not handled and escapes `run`. -/
theorem run_catches_only_keyboard_interrupt
    (cbp : List (List ℚ) → ℤ → Fin 5 → ℚ) (pre rest : List LoopEvent)
    (w w1 : GetWaves) (hpre : runBody cbp pre w = .ok w1) :
    runModel cbp (pre ++ LoopEvent.keyboardInterrupt :: rest) w =
      .returnedNormally "Closing!" ∧
    ∀ m, runModel cbp (pre ++ LoopEvent.otherExn m :: rest) w =
      .uncaught (.other m) := by
  constructor
  · rw [runModel, runBody_append, hpre]
    rfl
  · intro m
    rw [runModel, runBody_append, hpre]
    rfl

/-- Witness for C6: after one successfully processed chunk, Ctrl-C ends the
run normally with the farewell, while another exception escapes. -/
theorem run_catches_only_keyboard_interrupt_witness :
    runModel (fun _ _ _ => 0)
        [LoopEvent.chunk [[7, 8], [9, 10]], LoopEvent.keyboardInterrupt]
        (GetWaves.mk 1 Parameters.SHIFT_LENGTH 1 (List.replicate 5 [0]) none
          (List.replicate 21 (List.replicate 5 0))) =
      .returnedNormally "Closing!" ∧
    runModel (fun _ _ _ => 0)
        [LoopEvent.chunk [[7, 8], [9, 10]], LoopEvent.otherExn "boom"]
        (GetWaves.mk 1 Parameters.SHIFT_LENGTH 1 (List.replicate 5 [0]) none
          (List.replicate 21 (List.replicate 5 0))) =
      .uncaught (.other "boom") := by
  have h := run_catches_only_keyboard_interrupt (fun _ _ _ => 0)
    [LoopEvent.chunk [[7, 8], [9, 10]]] []
    (GetWaves.mk 1 Parameters.SHIFT_LENGTH 1 (List.replicate 5 [0]) none
      (List.replicate 21 (List.replicate 5 0)))
    (GetWaves.mk 1 Parameters.SHIFT_LENGTH 1 [[0], [0], [0], [7], [9]] (some ())
      (List.replicate 21 (List.replicate 5 0)))
    rfl
  exact ⟨h.1, h.2 "boom"⟩

/-- C10: a chunk pull that returns zero samples makes the
channel-selection expression fail with an `IndexError` inside the loop —
the loop step errors on the empty chunk — and, since the loop handles
only the keyboard interrupt, the error escapes `run` uncaught: an empty
chunk is not a tolerated input of the acquisition loop. -/
theorem empty_chunk_raises_uncaught_index_error
    (cbp : List (List ℚ) → ℤ → Fin 5 → ℚ) (w : GetWaves) :
    loopStep cbp w [] = .error .indexError ∧
    ∀ pre rest w1, runBody cbp pre w = .ok w1 →
      runModel cbp (pre ++ LoopEvent.chunk [] :: rest) w =
        .uncaught .indexError := by
  constructor
  · rfl
  · intro pre rest w1 hpre
    rw [runModel, runBody_append, hpre]
    rfl

/-- Witness for C10: the empty chunk crashes a concrete run. -/
theorem empty_chunk_raises_uncaught_index_error_witness :
    loopStep (fun _ _ _ => 0)
        (GetWaves.mk 1 Parameters.SHIFT_LENGTH 1 (List.replicate 5 [0]) none
          (List.replicate 21 (List.replicate 5 0))) [] =
      .error .indexError ∧
    runModel (fun _ _ _ => 0) [LoopEvent.chunk []]
        (GetWaves.mk 1 Parameters.SHIFT_LENGTH 1 (List.replicate 5 [0]) none
          (List.replicate 21 (List.replicate 5 0))) =
      .uncaught .indexError := by
  have h := empty_chunk_raises_uncaught_index_error (fun _ _ _ => 0)
    (GetWaves.mk 1 Parameters.SHIFT_LENGTH 1 (List.replicate 5 [0]) none
      (List.replicate 21 (List.replicate 5 0)))
  exact ⟨h.1, by
    have h2 := h.2 [] [] (GetWaves.mk 1 Parameters.SHIFT_LENGTH 1
      (List.replicate 5 [0]) none (List.replicate 21 (List.replicate 5 0))) rfl
    simpa using h2⟩

lemma update_buffer_fst_length (buf new : List α) (notch : Bool)
    (fst : Option FilterState) :
    (update_buffer buf new notch fst).1.length = buf.length := by
  simp [update_buffer]

lemma update_buffer_fst_mem (buf new : List α) (notch : Bool)
    (fst : Option FilterState) :
    ∀ r ∈ (update_buffer buf new notch fst).1, r ∈ buf ∨ r ∈ new := by
  intro r hr
  exact List.mem_append.mp (List.mem_of_mem_drop hr)

lemma update_buffer_discards_oldest (buf new : List α) (notch : Bool)
    (fst : Option FilterState) (h : new.length ≤ buf.length) :
    (update_buffer buf new notch fst).1 = buf.drop new.length ++ new := by
  simp only [update_buffer, List.drop_append_eq_append_drop,
    Nat.sub_eq_zero_of_le h, List.drop_zero]

lemma chSelect_ok_row_lengths (eeg_data ch : List (List ℚ))
    (h : chSelect eeg_data = .ok ch) :
    ∀ r ∈ ch, r.length = Parameters.INDEX_CHANNEL.length := by
  intro r hr
  cases eeg_data with
  | nil => exact absurd h (by simp [chSelect])
  | cons hd tl =>
    rw [chSelect] at h
    split at h
    · cases h
      obtain ⟨row, _, rfl⟩ := List.mem_map.mp hr
      simp
    · cases h

/-- C2: one iteration of the acquisition loop preserves the buffer shapes
fixed at construction — the raw EEG buffer keeps `fs * BUFFER_LENGTH`
samples of 1 channel each and the band-power buffer keeps `n_win_test`
epochs of 5 bands each; construction allocates exactly these shapes; and
each push discards the oldest entries of a buffer to make room for the
newest, which are appended at the end. -/
theorem acquisition_loop_preserves_buffer_shapes
    (cbp : List (List ℚ) → ℤ → Fin 5 → ℚ) (w w2 : GetWaves)
    (eeg_data : List (List ℚ))
    (hstep : loopStep cbp w eeg_data = .ok w2)
    (h1 : w.eeg_buffer.length = (w.fs * Parameters.BUFFER_LENGTH).toNat)
    (h2 : ∀ r ∈ w.eeg_buffer, r.length = 1)
    (h3 : w.band_buffer.length = nWinTest)
    (h4 : ∀ r ∈ w.band_buffer, r.length = 5) :
    (w2.fs = w.fs ∧
     w2.eeg_buffer.length = (w.fs * Parameters.BUFFER_LENGTH).toNat ∧
     (∀ r ∈ w2.eeg_buffer, r.length = 1) ∧
     w2.band_buffer.length = nWinTest ∧
     (∀ r ∈ w2.band_buffer, r.length = 5)) ∧
    (∀ (t : ℚ) (resolve : String → String → ℚ → List StreamInfo) (w0 : GetWaves),
       GetWaves.init t resolve = .ok w0 →
       w0.eeg_buffer.length = (w0.fs * Parameters.BUFFER_LENGTH).toNat ∧
       (∀ r ∈ w0.eeg_buffer, r.length = 1) ∧
       w0.band_buffer.length = nWinTest ∧
       (∀ r ∈ w0.band_buffer, r.length = 5)) ∧
    (∀ (buf extra : List (List ℚ)) (notch : Bool) (fst : Option FilterState),
       extra.length ≤ buf.length →
       (update_buffer buf extra notch fst).1 = buf.drop extra.length ++ extra) := by
  refine ⟨?_, ?_, fun buf extra notch fst h => update_buffer_discards_oldest _ _ _ _ h⟩
  · rw [loopStep] at hstep
    cases hch : chSelect eeg_data with
    | error e => rw [hch] at hstep; cases hstep
    | ok ch =>
      rw [hch] at hstep
      cases hstep
      dsimp only
      refine ⟨rfl, ?_, ?_, ?_, ?_⟩
      · rw [update_buffer_fst_length]; exact h1
      · intro r hr
        rcases update_buffer_fst_mem _ _ _ _ r hr with h | h
        · exact h2 r h
        · have := chSelect_ok_row_lengths eeg_data ch hch r h
          simpa [Parameters.INDEX_CHANNEL] using this
      · rw [update_buffer_fst_length]; exact h3
      · intro r hr
        rcases update_buffer_fst_mem _ _ _ _ r hr with h | h
        · exact h4 r h
        · rcases List.mem_singleton.mp h with rfl
          exact List.length_ofFn _
  · intro t resolve w0 hinit
    rw [GetWaves.init] at hinit
    cases hres : resolve "type" "EEG" t with
    | nil => rw [hres] at hinit; cases hinit
    | cons s rest =>
      rw [hres] at hinit
      cases hinit
      refine ⟨by simp, ?_, by simp, ?_⟩
      · intro r hr
        rcases List.eq_of_mem_replicate hr with rfl
        rfl
      · intro r hr
        rcases List.eq_of_mem_replicate hr with rfl
        exact List.length_replicate 5 0

/-- Witness for C2: a concrete loop step on a freshly shaped object keeps
both buffer shapes. -/
theorem acquisition_loop_preserves_buffer_shapes_witness :
    (GetWaves.mk 1 Parameters.SHIFT_LENGTH 1 [[0], [0], [0], [7], [9]] (some ())
        (List.replicate 21 (List.replicate 5 0))).eeg_buffer.length =
      (((1 : ℤ)) * Parameters.BUFFER_LENGTH).toNat ∧
    (GetWaves.mk 1 Parameters.SHIFT_LENGTH 1 [[0], [0], [0], [7], [9]] (some ())
        (List.replicate 21 (List.replicate 5 0))).band_buffer.length = nWinTest := by
  have h := acquisition_loop_preserves_buffer_shapes (fun _ _ _ => 0)
    (GetWaves.mk 1 Parameters.SHIFT_LENGTH 1 (List.replicate 5 [0]) none
      (List.replicate 21 (List.replicate 5 0)))
    (GetWaves.mk 1 Parameters.SHIFT_LENGTH 1 [[0], [0], [0], [7], [9]] (some ())
      (List.replicate 21 (List.replicate 5 0)))
    [[7, 8], [9, 10]] rfl (by simp [Parameters.BUFFER_LENGTH]) (by decide)
    (by simp [nWinTest_eq]) (by decide)
  exact ⟨h.1.2.1, h.1.2.2.2.1⟩

/-- The library calls one iteration of the acquisition loop of
`GetWaves.run` makes, in source order; the pull records the keyword
timeout it passes (the only call in the loop that takes one) and its
`max_samples` argument. -/
inductive LoopCall where
  | pullChunk (timeout : Option ℚ) (max_samples : ℤ)
  | updateBufferEEG
  | getLastData
  | computeBandPowers
  | updateBufferBand
  | outputCall
  | plotCall
  | callback
deriving DecidableEq, Repr

/-- The call sequence of one iteration of the loop in `GetWaves.run`:
`inlet.pull_chunk(timeout=1, max_samples=int(self.shiftLength * self.fs))`,
the two buffer updates around epoch extraction and band-power
computation, `self.output`, the plotting block, and — only when a
callback was supplied — `function(params)`. -/
def loopCalls (shiftLength : ℚ) (fs : ℤ) (hasCallback : Bool) : List LoopCall :=
  [LoopCall.pullChunk (some 1) (pyInt (shiftLength * fs)),
   LoopCall.updateBufferEEG, LoopCall.getLastData, LoopCall.computeBandPowers,
   LoopCall.updateBufferBand, LoopCall.outputCall, LoopCall.plotCall] ++
  (if hasCallback then [LoopCall.callback] else [])

/-- The timeout a loop call passes, when it takes one. -/
def callTimeout : LoopCall → Option ℚ
  | .pullChunk t _ => t
  | _ => none

/-- C8: on every iteration of the acquisition loop the chunk pull is
invoked with a timeout of exactly one second and a maximum sample count
of `int(SHIFT_LENGTH * fs)`, and it is the only call in the loop that
uses a timeout. -/
theorem pull_chunk_one_second_timeout (fs : ℤ) (hasCallback : Bool) :
    (loopCalls Parameters.SHIFT_LENGTH fs hasCallback).head? =
      some (LoopCall.pullChunk (some 1) (pyInt (Parameters.SHIFT_LENGTH * fs))) ∧
    ∀ c ∈ loopCalls Parameters.SHIFT_LENGTH fs hasCallback,
      (callTimeout c).isSome →
        c = LoopCall.pullChunk (some 1) (pyInt (Parameters.SHIFT_LENGTH * fs)) := by
  constructor
  · rfl
  · intro c hc ht
    rw [loopCalls] at hc
    rcases List.mem_append.mp hc with h | h
    · fin_cases h <;> first | rfl | simp [callTimeout] at ht
    · cases hasCallback with
      | false => simp at h
      | true =>
        rw [if_pos rfl] at h
        fin_cases h
        simp [callTimeout] at ht

/-- Witness for C8: the pull call of a concrete iteration (`fs = 256`,
no callback) carries the one-second timeout and the computed sample cap. -/
theorem pull_chunk_one_second_timeout_witness :
    (loopCalls Parameters.SHIFT_LENGTH 256 false).head? =
      some (LoopCall.pullChunk (some 1) (pyInt (Parameters.SHIFT_LENGTH * 256))) ∧
    LoopCall.pullChunk (some 1) (pyInt (Parameters.SHIFT_LENGTH * 256)) =
      LoopCall.pullChunk (some 1) (pyInt (Parameters.SHIFT_LENGTH * 256)) :=
  ⟨(pull_chunk_one_second_timeout 256 false).1,
   (pull_chunk_one_second_timeout 256 false).2
     (LoopCall.pullChunk (some 1) (pyInt (Parameters.SHIFT_LENGTH * 256)))
     (by simp [loopCalls]) (by simp [callTimeout])⟩

/-- The two library calls the module body of `musestream.py` makes. -/
inductive MuseCall where
  | elevateCall
  | streamCall (address : String) (backend : String) (interface : Option String)
      (deviceName : Option String) (ppg : Bool) (acc : Bool) (gyro : Bool)
      (disable_eeg : Bool)
deriving DecidableEq, Repr

-- The module-level constants of `musestream.py`.
namespace MuseStream

def acc : Bool := false

def address : String := "00:55:DA:B3:BE:F7"

def backend : String := "auto"

def disable_eeg : Bool := false

def gyro : Bool := false

def interface : Option String := none

def deviceName : Option String := none

def ppg : Bool := false

/-- The call sequence of the module body of `musestream.py`: `elevate()`
followed by
`stream(address, backend, interface, name, ppg, acc, gyro, disable_eeg)`. -/
def trace : List MuseCall :=
  [MuseCall.elevateCall,
   MuseCall.streamCall address backend interface deviceName ppg acc gyro disable_eeg]

end MuseStream

/-- C7: `musestream.py` first elevates privileges and then makes a single
streaming call, passing the hardcoded device address and the boolean
feature flags for PPG, accelerometer, gyroscope and EEG disable, in that
argument order; elevate strictly precedes the stream call, which is the
only stream call of the module. -/
theorem musestream_elevates_then_streams :
    MuseStream.trace =
      [MuseCall.elevateCall,
       MuseCall.streamCall "00:55:DA:B3:BE:F7" "auto" none none
         false false false false] ∧
    MuseStream.trace.head? = some MuseCall.elevateCall ∧
    (MuseStream.trace.filter (fun c =>
      match c with
      | MuseCall.streamCall _ _ _ _ _ _ _ _ => true
      | _ => false)).length = 1 :=
  ⟨rfl, rfl, rfl⟩
